import Mathlib

/-!
# InsightAlpha — verification of the valuation / news-pipeline core

Shallow embedding of `src/app.py`'s core logic:

* `calculate_dcf` (discounted-cash-flow valuation),
* `calculate_rsi` (relative strength index over a price series,
  with pandas NaN semantics encoded as `Option ℚ`),
* the module-level news normalization / sentiment aggregation loop.

Python floats are modelled as exact rationals (`ℚ`); a pandas `NaN`
cell is `none`.  Python `None`-able record fields are `Option` fields;
a nested field whose value is absent *or not a dict* is modelled as
`none`, because the source only ever tests such fields with
`isinstance(x, dict)` before access, so the two cases are
indistinguishable to it.
-/

namespace InsightAlpha

/-! ## DCF valuation (`calculate_dcf`, src/app.py lines 64–75) -/

/-- The fundamentals snapshot fields `calculate_dcf` reads.
`none` models a missing key (`info.get` returning `None`). -/
structure Fundamentals where
  freeCashflow : Option ℚ
  sharesOutstanding : Option ℚ
  deriving Repr, DecidableEq

/-- The arithmetic of `calculate_dcf` after the guards have passed:
`future_fcf = [fcf*(1+growth)**i for i in range(1, 6)]`,
`pv_fcf = sum(f / (1+discount)**i for i, f in enumerate(future_fcf, 1))`,
`tv = future_fcf[-1]*(1+terminal) / (discount-terminal)`,
`pv_tv = tv / (1+discount)**5`, result `(pv_fcf + pv_tv) / shares`. -/
def dcfCore (fcf shares : ℚ) : ℚ :=
  let growth : ℚ := 0.12
  let discount : ℚ := 0.10
  let terminal : ℚ := 0.03
  let future_fcf : List ℚ := (List.range 5).map (fun i => fcf * (1 + growth) ^ (i + 1))
  let pv_fcf : ℚ := ((future_fcf.enumFrom 1).map (fun p => p.2 / (1 + discount) ^ p.1)).sum
  let tv : ℚ := (future_fcf.getLastD 0 * (1 + terminal)) / (discount - terminal)
  let pv_tv : ℚ := tv / (1 + discount) ^ 5
  (pv_fcf + pv_tv) / shares

/-- Embeds `calculate_dcf` (src/app.py 64–75).  Python's
`if not fcf or fcf < 0 or not shares: return None` — `not x` is true for
`None` and for `0` — then the closed-form value.  The `try/except` makes
the function total with `None` on any fault; in the rational model the
remaining arithmetic is itself total (the divisor `discount - terminal`
is the constant `0.07`), so no further case is needed. -/
def calculate_dcf (info : Fundamentals) : Option ℚ :=
  match info.freeCashflow with
  | none => none
  | some fcf =>
    if fcf = 0 ∨ fcf < 0 then none
    else
      match info.sharesOutstanding with
      | none => none
      | some shares =>
        if shares = 0 then none else some (dcfCore fcf shares)

/-- The closed-form value named by the spec: the discounted 5-year
cash-flow sum plus the discounted Gordon-growth terminal value, divided
by shares outstanding.  Year `i+1` ranges over `1..5` as `i` ranges over
`range 5`. -/
def dcfClosedForm (fcf shares : ℚ) : ℚ :=
  ((∑ i ∈ Finset.range 5, fcf * (1.12 : ℚ) ^ (i + 1) / (1.10 : ℚ) ^ (i + 1)) +
    (fcf * (1.12 : ℚ) ^ 5 * (1.03 : ℚ) / ((0.10 : ℚ) - 0.03)) / (1.10 : ℚ) ^ 5) / shares

theorem dcfCore_eq_closedForm (fcf shares : ℚ) :
    dcfCore fcf shares = dcfClosedForm fcf shares := by
  simp [dcfCore, dcfClosedForm, List.range_succ, Finset.sum_range_succ, List.enumFrom]
  ring

/-- The DCF arithmetic is linear in the cash flow: it is the constant
`dcfCore 1 1` scaled by `fcf` and divided by `shares`. -/
theorem dcfCore_eq_linear (fcf shares : ℚ) :
    dcfCore fcf shares = fcf * dcfCore 1 1 / shares := by
  simp [dcfCore, List.range_succ, List.enumFrom]
  ring

theorem dcfCore_one_one_pos : 0 < dcfCore 1 1 := by
  norm_num [dcfCore, List.range_succ, List.enumFrom]

/-- C1 counterexample: for `freeCashflow = 1000` and
`sharesOutstanding = -5` (present but *not positive*), `calculate_dcf`
returns a value, not `None` — `not shares` in the guard is false for a
negative number, so the claim "returns None unless shares outstanding is
present and positive" fails here. -/
theorem calculate_dcf_negative_shares_not_none :
    ¬ (0 < (-5 : ℚ)) ∧
      calculate_dcf ⟨some 1000, some (-5)⟩ ≠ none := by
  refine ⟨by norm_num, ?_⟩
  simp [calculate_dcf]

/-- C1 (amended): `calculate_dcf` returns `None` exactly when free cash
flow is missing or not strictly positive, or shares outstanding is
missing or zero; a present *negative* share count passes the guard and
yields a value.  The `try/except` is modelled by totality: the function
always returns an `Option`, never propagating a fault. -/
theorem calculate_dcf_none_iff (info : Fundamentals) :
    calculate_dcf info = none ↔
      ¬ ((∃ f, info.freeCashflow = some f ∧ 0 < f) ∧
         (∃ s, info.sharesOutstanding = some s ∧ s ≠ 0)) := by
  obtain ⟨fcf, shares⟩ := info
  match fcf, shares with
  | none, _ => simp [calculate_dcf]
  | some f, none =>
    by_cases hf : f = 0 ∨ f < 0 <;> simp [calculate_dcf, hf]
  | some f, some s =>
    by_cases hf : f = 0 ∨ f < 0
    · have : ¬ 0 < f := by rcases hf with h | h <;> simp [h]; linarith
      simp [calculate_dcf, hf, this]
    · push_neg at hf
      have hfpos : 0 < f := lt_of_le_of_ne (by linarith [hf.2]) (Ne.symm hf.1)
      by_cases hs : s = 0 <;> simp [calculate_dcf, hf.1, hf.2, hs, hfpos, not_lt]

/-- C4: when free cash flow and shares outstanding are both strictly
positive, `calculate_dcf` returns exactly the closed-form value
`(∑ i=1..5 FCF·1.12^i/1.10^i + (FCF·1.12^5·1.03/(0.10-0.03))/1.10^5) / shares`. -/
theorem calculate_dcf_closed_form (f s : ℚ) (hf : 0 < f) (hs : 0 < s) :
    calculate_dcf ⟨some f, some s⟩ = some (dcfClosedForm f s) := by
  rw [show dcfClosedForm f s = dcfCore f s from (dcfCore_eq_closedForm f s).symm]
  simp [calculate_dcf, hf.ne', (by linarith : ¬ f < 0), hs.ne']

/-- C4 witness: the spec's example, `freeCashFlow = 1_000_000`,
`sharesOutstanding = 100_000`: DCF equals the closed form,
`391297424/1830125` exactly (≈ $213.81). -/
theorem calculate_dcf_closed_form_witness :
    0 < (1000000 : ℚ) ∧ 0 < (100000 : ℚ) ∧
      calculate_dcf ⟨some 1000000, some 100000⟩ = some (dcfClosedForm 1000000 100000) ∧
      calculate_dcf ⟨some 1000000, some 100000⟩ = some (391297424 / 1830125 : ℚ) := by
  refine ⟨by norm_num, by norm_num,
    calculate_dcf_closed_form 1000000 100000 (by norm_num) (by norm_num), ?_⟩
  simp [calculate_dcf]
  norm_num [dcfCore, List.range_succ, List.enumFrom]

/-- C9: with shares outstanding fixed and positive, `calculate_dcf` is
strictly increasing in free cash flow over positive cash flows. -/
theorem calculate_dcf_monotone_fcf (f₁ f₂ s : ℚ)
    (h₁ : 0 < f₁) (h₂ : 0 < f₂) (hs : 0 < s) (hlt : f₁ < f₂) :
    ∃ d₁ d₂, calculate_dcf ⟨some f₁, some s⟩ = some d₁ ∧
      calculate_dcf ⟨some f₂, some s⟩ = some d₂ ∧ d₁ < d₂ := by
  refine ⟨dcfCore f₁ s, dcfCore f₂ s, ?_, ?_, ?_⟩
  · simp [calculate_dcf, h₁.ne', (by linarith : ¬ f₁ < 0), hs.ne']
  · simp [calculate_dcf, h₂.ne', (by linarith : ¬ f₂ < 0), hs.ne']
  · rw [dcfCore_eq_linear f₁ s, dcfCore_eq_linear f₂ s]
    have hc := dcfCore_one_one_pos
    exact div_lt_div_of_pos_right (mul_lt_mul_of_pos_right hlt hc) hs

/-- C9 witness: DCF at cash flow 1 is below DCF at cash flow 2 for one
share. -/
theorem calculate_dcf_monotone_fcf_witness :
    ∃ d₁ d₂, calculate_dcf ⟨some 1, some 1⟩ = some d₁ ∧
      calculate_dcf ⟨some 2, some 1⟩ = some d₂ ∧ d₁ < d₂ :=
  calculate_dcf_monotone_fcf 1 2 1 (by norm_num) (by norm_num) (by norm_num) (by norm_num)

/-! ## RSI (`calculate_rsi`, src/app.py 56–61)

A pandas Series cell is `Option ℚ`, `none` playing NaN.  `data.diff()`
has NaN at index 0; `delta.where(delta > 0, 0)` replaces every cell
whose condition is false — including the NaN cell, since `NaN > 0` is
false — by `0`, so the gain/loss series are fully defined with a `0` at
index 0.  `rolling(window).mean()` is `none` until the window holds
`window` observations, i.e. at indices `0 .. window-2`. -/

/-- Embeds `data.diff()` without its leading NaN: `deltas[i] = data[i+1] - data[i]`. -/
def deltas (data : List ℚ) : List ℚ :=
  List.zipWith (fun b a => b - a) data.tail data

/-- Embeds `(delta.where(delta > 0, 0))`: `0` at index 0 (the NaN delta fails
`NaN > 0` and is replaced), `max(delta, 0)` afterwards. -/
def gains (data : List ℚ) : List ℚ :=
  if data.isEmpty then [] else 0 :: (deltas data).map (fun d => if 0 < d then d else 0)

/-- Embeds `(-delta.where(delta < 0, 0))`: `0` at index 0, `max(-delta, 0)` afterwards. -/
def losses (data : List ℚ) : List ℚ :=
  if data.isEmpty then [] else 0 :: (deltas data).map (fun d => if d < 0 then -d else 0)

/-- Embeds `series.rolling(window=w).mean()`: `none` below `w` observations,
else the trailing mean of cells `i-w+1 .. i`. -/
def rollingMean (w : ℕ) (xs : List ℚ) : List (Option ℚ) :=
  (List.range xs.length).map (fun i =>
    if w ≤ i + 1 then some (((xs.take (i + 1)).drop (i + 1 - w)).sum / (w : ℚ)) else none)

/-- One cell of `100 - (100 / (1 + rs))` with `rs = gain/loss`, under
IEEE semantics mapped to `Option ℚ`: if either mean is NaN the cell is
NaN; `g/0` with `g ≠ 0` is infinite and the expression collapses to
`100`; `0/0` is NaN. -/
def rsiCell : Option ℚ → Option ℚ → Option ℚ
  | some g, some l =>
    if l = 0 then (if g = 0 then none else some 100)
    else some (100 - 100 / (1 + g / l))
  | _, _ => none

/-- Embeds `calculate_rsi` (src/app.py 56–61). -/
def calculate_rsi (data : List ℚ) (window : ℕ) : List (Option ℚ) :=
  List.zipWith rsiCell (rollingMean window (gains data)) (rollingMean window (losses data))

/-- Embeds `hist.dropna(subset=['RSI'])` restricted to the RSI column: the
defined cells, in order. -/
def cleanRSI (data : List ℚ) (window : ℕ) : List ℚ :=
  (calculate_rsi data window).filterMap id

/-- The headline RSI stored in `get_data`'s summary record
(src/app.py 97): `hist['RSI'].iloc[-1] if not hist['RSI'].empty else 50`,
taken *before* the `dropna`. -/
def headlineRSI (data : List ℚ) : Option ℚ :=
  match (calculate_rsi data 14).getLast? with
  | none => some 50
  | some v => v

theorem length_deltas (data : List ℚ) : (deltas data).length = data.length - 1 := by
  simp [deltas]

theorem length_gains (data : List ℚ) : (gains data).length = data.length := by
  cases data with
  | nil => simp [gains]
  | cons a l => simp [gains, length_deltas]

theorem length_losses (data : List ℚ) : (losses data).length = data.length := by
  cases data with
  | nil => simp [losses]
  | cons a l => simp [losses, length_deltas]

theorem length_rollingMean (w : ℕ) (xs : List ℚ) :
    (rollingMean w xs).length = xs.length := by
  simp [rollingMean]

theorem length_calculate_rsi (data : List ℚ) (window : ℕ) :
    (calculate_rsi data window).length = data.length := by
  simp [calculate_rsi, length_rollingMean, length_gains, length_losses]

theorem gains_nonneg (data : List ℚ) : ∀ x ∈ gains data, 0 ≤ x := by
  intro x hx
  unfold gains at hx
  split at hx
  · simp at hx
  · rcases List.mem_cons.mp hx with rfl | hx'
    · rfl
    · obtain ⟨d, _, rfl⟩ := List.mem_map.mp hx'
      split <;> [linarith; rfl]

theorem losses_nonneg (data : List ℚ) : ∀ x ∈ losses data, 0 ≤ x := by
  intro x hx
  unfold losses at hx
  split at hx
  · simp at hx
  · rcases List.mem_cons.mp hx with rfl | hx'
    · rfl
    · obtain ⟨d, _, rfl⟩ := List.mem_map.mp hx'
      split <;> [linarith; rfl]

theorem rollingMean_nonneg (w : ℕ) (xs : List ℚ) (hxs : ∀ x ∈ xs, 0 ≤ x) :
    ∀ o ∈ rollingMean w xs, ∀ v, o = some v → 0 ≤ v := by
  intro o ho v hv
  simp only [rollingMean, List.mem_map, List.mem_range] at ho
  obtain ⟨i, _, rfl⟩ := ho
  split at hv
  · cases hv
    apply div_nonneg _ (by positivity)
    apply List.sum_nonneg
    intro x hx
    exact hxs x (List.mem_of_mem_take (List.mem_of_mem_drop hx))
  · cases hv

theorem rsiCell_bounds {g l : Option ℚ} (hg : ∀ v, g = some v → 0 ≤ v)
    (hl : ∀ v, l = some v → 0 ≤ v) :
    ∀ x, rsiCell g l = some x → 0 ≤ x ∧ x ≤ 100 := by
  intro x hx
  match g, l with
  | none, _ => simp [rsiCell] at hx
  | some gv, none => simp [rsiCell] at hx
  | some gv, some lv =>
    have hg0 : 0 ≤ gv := hg gv rfl
    have hl0 : 0 ≤ lv := hl lv rfl
    by_cases h : lv = 0
    · by_cases h2 : gv = 0 <;> simp [rsiCell, h, h2] at hx
      subst hx; norm_num
    · have hlpos : 0 < lv := lt_of_le_of_ne hl0 (Ne.symm h)
      simp only [rsiCell, h, if_false] at hx
      cases hx
      have hr : (0:ℚ) ≤ gv / lv := div_nonneg hg0 hl0
      have h1 : (1:ℚ) ≤ 1 + gv / lv := by linarith
      constructor
      · have : 100 / (1 + gv / lv) ≤ 100 := div_le_self (by norm_num) h1
        linarith
      · have : 0 < 100 / (1 + gv / lv) := div_pos (by norm_num) (by linarith)
        linarith

theorem forall_mem_zipWith {α β γ : Type} {f : α → β → γ} {P : γ → Prop} :
    ∀ (as : List α) (bs : List β), (∀ a ∈ as, ∀ b ∈ bs, P (f a b)) →
      ∀ c ∈ List.zipWith f as bs, P c := by
  intro as
  induction as with
  | nil => intro bs _ c hc; simp at hc
  | cons a as ih =>
    intro bs h c hc
    cases bs with
    | nil => simp at hc
    | cons b bs =>
      simp only [List.zipWith_cons_cons, List.mem_cons] at hc
      rcases hc with rfl | hc
      · exact h a (by simp) b (by simp)
      · exact ih bs (fun a' ha' b' hb' => h a' (by simp [ha']) b' (by simp [hb'])) c hc

theorem rollingMean_getElem? (w : ℕ) (xs : List ℚ) (i : ℕ) (hi : i < xs.length) :
    (rollingMean w xs)[i]? =
      some (if w ≤ i + 1 then
        some (((xs.take (i + 1)).drop (i + 1 - w)).sum / (w : ℚ)) else none) := by
  simp [rollingMean, List.getElem?_map, List.getElem?_range, hi]

theorem calculate_rsi_getElem? (data : List ℚ) (w i : ℕ)
    (a b : Option ℚ)
    (ha : (rollingMean w (gains data))[i]? = some a)
    (hb : (rollingMean w (losses data))[i]? = some b) :
    (calculate_rsi data w)[i]? = some (rsiCell a b) := by
  simp [calculate_rsi, List.getElem?_zipWith, ha, hb]

theorem calculate_rsi_undefined_below_window (data : List ℚ) (w i : ℕ)
    (hi : i < data.length) (hw : i + 1 < w) :
    (calculate_rsi data w)[i]? = some none := by
  have ha := rollingMean_getElem? w (gains data) i (by rw [length_gains]; exact hi)
  have hb := rollingMean_getElem? w (losses data) i (by rw [length_losses]; exact hi)
  rw [if_neg (by omega)] at ha hb
  rw [calculate_rsi_getElem? data w i none none ha hb]
  rfl

/-- 14 strictly increasing closes: every delta is a gain, so the loss
moving average is 0 as soon as the window fills. -/
def incr14 : List ℚ := [0, 1, 2, 3, 4, 5, 6, 7, 8, 9, 10, 11, 12, 13]

/-- The spec's example series, padded to 14 points. -/
def rsiExample : List ℚ :=
  [10, 10.5, 10.2, 11, 11.5, 11.2, 12, 12.5, 12.2, 13, 13.5, 13.2, 14, 14.5]

/-- C5 (amended): for `window ≤ length`, every defined RSI value — the
cells surviving `dropna` — lies in `[0, 100]`, and the first
`window − 1` entries (not `window`: the NaN of `diff()` at index 0 is
replaced by 0 by `where`, so the window fills one step early) are
undefined. -/
theorem calculate_rsi_bounds_and_window (data : List ℚ) (window : ℕ)
    (hwin : window ≤ data.length) :
    (∀ v ∈ cleanRSI data window, 0 ≤ v ∧ v ≤ 100) ∧
    (∀ i, i + 1 < window → (calculate_rsi data window)[i]? = some none) := by
  constructor
  · intro v hv
    have hsome : some v ∈
        List.zipWith rsiCell (rollingMean window (gains data))
          (rollingMean window (losses data)) := by
      obtain ⟨o, ho, he⟩ := List.mem_filterMap.mp hv
      simp only [id] at he
      rw [← he]
      simpa [calculate_rsi] using ho
    refine forall_mem_zipWith (P := fun o => ∀ x, o = some x → 0 ≤ x ∧ x ≤ 100)
      _ _ ?_ (some v) hsome v rfl
    intro a ha b hb
    exact rsiCell_bounds
      (fun x hx => rollingMean_nonneg _ _ (gains_nonneg data) a ha x hx)
      (fun x hx => rollingMean_nonneg _ _ (losses_nonneg data) b hb x hx)
  · intro i hi
    exact calculate_rsi_undefined_below_window data window i (by omega) hi

/-- C5 witness: the spec's example series with window 14. -/
theorem calculate_rsi_bounds_and_window_witness :
    14 ≤ rsiExample.length ∧
      ((∀ v ∈ cleanRSI rsiExample 14, 0 ≤ v ∧ v ≤ 100) ∧
       (∀ i, i + 1 < 14 → (calculate_rsi rsiExample 14)[i]? = some none)) :=
  ⟨by simp [rsiExample], calculate_rsi_bounds_and_window rsiExample 14 (by simp [rsiExample])⟩

/-- C5 counterexample: the claim says the first `window` entries are
undefined and excluded, but for 14 strictly increasing closes the entry
at index 13 < 14 is already defined (it is 100) and survives the
`dropna`. -/
theorem calculate_rsi_defined_before_window :
    13 < 14 ∧ (calculate_rsi incr14 14)[13]? = some (some 100) ∧
      (100 : ℚ) ∈ cleanRSI incr14 14 := by
  refine ⟨by norm_num, ?_, ?_⟩ <;>
    norm_num [calculate_rsi, cleanRSI, rollingMean, gains, losses, deltas,
      rsiCell, incr14, List.range_succ, List.filterMap_cons]

/-- C6: whenever the trailing loss mean is 0 and the trailing gain mean
is strictly positive, the RSI cell is exactly 100, with no division
fault (the embedding is total). -/
theorem calculate_rsi_loss_zero (data : List ℚ) (window i : ℕ) (g : ℚ)
    (hl : (rollingMean window (losses data))[i]? = some (some 0))
    (hg : (rollingMean window (gains data))[i]? = some (some g))
    (hgpos : 0 < g) :
    (calculate_rsi data window)[i]? = some (some 100) := by
  rw [calculate_rsi_getElem? data window i (some g) (some 0) hg hl]
  simp [rsiCell, hgpos.ne']

/-- C6 witness: 14 strictly increasing closes, index 13: loss mean 0,
gain mean 13/14 > 0, RSI exactly 100. -/
theorem calculate_rsi_loss_zero_witness :
    (rollingMean 14 (losses incr14))[13]? = some (some 0) ∧
      (rollingMean 14 (gains incr14))[13]? = some (some (13 / 14)) ∧
      (0 : ℚ) < 13 / 14 ∧
      (calculate_rsi incr14 14)[13]? = some (some 100) := by
  have h1 : (rollingMean 14 (losses incr14))[13]? = some (some 0) := by
    norm_num [rollingMean, losses, deltas, incr14, List.range_succ]
  have h2 : (rollingMean 14 (gains incr14))[13]? = some (some (13 / 14)) := by
    norm_num [rollingMean, gains, deltas, incr14, List.range_succ]
  have h3 : (0 : ℚ) < 13 / 14 := by norm_num
  exact ⟨h1, h2, h3, calculate_rsi_loss_zero incr14 14 13 (13 / 14) h1 h2 h3⟩

/-- C10 (amended): the headline RSI is the last cell of the RSI column
*before* `dropna`; the `else 50` branch is unreachable for a non-empty
history because the RSI column has the history's length; and the value
is NaN (`none`) exactly when the history is shorter than `window = 14`
rows — not `window + 1 = 15`: a 14-row history already has a defined
last cell. -/
theorem headlineRSI_last_before_dropna (data : List ℚ) (hne : data ≠ []) :
    calculate_rsi data 14 ≠ [] ∧
    (∃ v, (calculate_rsi data 14).getLast? = some v ∧ headlineRSI data = v) ∧
    (data.length < 14 → headlineRSI data = none) := by
  have hlen := length_calculate_rsi data 14
  have hpos : 0 < data.length := List.length_pos.mpr hne
  have hlt' : data.length - 1 < (calculate_rsi data 14).length := by omega
  have hg : (calculate_rsi data 14).getLast? = (calculate_rsi data 14)[data.length - 1]? := by
    rw [List.getLast?_eq_getElem?, hlen]
  have hv : (calculate_rsi data 14).getLast? =
      some ((calculate_rsi data 14).get ⟨data.length - 1, hlt'⟩) := by
    rw [hg]
    simp [List.getElem?_eq_getElem hlt', List.get_eq_getElem]
  refine ⟨?_, ⟨_, hv, by simp [headlineRSI, hv]⟩, ?_⟩
  · intro h
    rw [h] at hlen
    simp at hlen
    omega
  · intro hlt
    have hnone := calculate_rsi_undefined_below_window data 14 (data.length - 1)
      (by omega) (by omega)
    have hlast : (calculate_rsi data 14).getLast? = some none := by rw [hg, hnone]
    simp [headlineRSI, hlast]

/-- C10 witness: a one-row history: the column is non-empty (no `else
50`), and the headline RSI is NaN. -/
theorem headlineRSI_last_before_dropna_witness :
    ([(5 : ℚ)] : List ℚ) ≠ [] ∧
      (calculate_rsi [(5 : ℚ)] 14 ≠ [] ∧
       (∃ v, (calculate_rsi [(5 : ℚ)] 14).getLast? = some v ∧ headlineRSI [(5 : ℚ)] = v) ∧
       (([(5 : ℚ)] : List ℚ).length < 14 → headlineRSI [(5 : ℚ)] = none)) :=
  ⟨by simp, headlineRSI_last_before_dropna [(5 : ℚ)] (by simp)⟩

/-- C10 counterexample: the claim says a non-empty history with fewer
than 15 rows yields a NaN headline RSI, but a 14-row strictly increasing
history already yields the number 100. -/
theorem headlineRSI_fourteen_rows_defined :
    incr14 ≠ [] ∧ incr14.length < 15 ∧ headlineRSI incr14 = some 100 := by
  refine ⟨by simp [incr14], by norm_num [incr14], ?_⟩
  norm_num [headlineRSI, calculate_rsi, rollingMean, gains, losses, deltas,
    rsiCell, incr14, List.range_succ]

/-! ## News normalization and sentiment aggregation
(module-level loop, src/app.py 167–215)

A raw news record's fields may be absent; a nested structure the source
guards with `isinstance(x, dict)` is `none` both when absent and when
present with a non-dict value, since the source treats the two alike. -/

/-- A nested url-bearing dict such as `content.clickThroughUrl`. -/
structure UrlObj where
  url : Option String := none
  deriving Repr, DecidableEq

/-- The nested `content` dict. -/
structure ContentObj where
  title : Option String := none
  clickThroughUrl : Option UrlObj := none
  canonicalUrl : Option UrlObj := none
  deriving Repr, DecidableEq

/-- One raw news record as the loop reads it. -/
structure NewsItem where
  title : Option String := none
  link : Option String := none
  content : Option ContentObj := none
  deriving Repr, DecidableEq

/-- Python truthiness of an optional string: `None` and `""` are falsy. -/
def truthyS : Option String → Bool
  | some s => !s.isEmpty
  | none => false

/-- Embeds the title resolution
`n.get('title') or (n.get('content', x).get('title') if isinstance(n.get('content'), dict) else None)`
followed by the loop's `if title` guard: the first truthy candidate, if
any (src/app.py 178–179). -/
def extractTitle (n : NewsItem) : Option String :=
  if truthyS n.title then n.title
  else
    match n.content with
    | some c => if truthyS c.title then c.title else none
    | none => none

/-- The "SAFE LINK RETRIEVAL" block (src/app.py 182–193): starts from
`n.get('link')`; while the current value is falsy, tries
`content.clickThroughUrl.url` and then `content.canonicalUrl.url`, each
only when the nested object is a dict. -/
def extractLink (n : NewsItem) : Option String :=
  if truthyS n.link then n.link
  else
    match n.content with
    | none => n.link
    | some c =>
      let link₁ := match c.clickThroughUrl with
        | some u => u.url
        | none => n.link
      if truthyS link₁ then link₁
      else
        match c.canonicalUrl with
        | some u => u.url
        | none => link₁

/-- The fallback search URL: `f"https://www.google.com/search?q={title}"` —
note the title is interpolated raw, with no URL escaping. -/
def searchLink (title : String) : String :=
  "https://www.google.com/search?q=" ++ title

/-- Embeds `final_link = link if link else <search URL from title>`
(src/app.py 199). -/
def finalLink (link : Option String) (title : String) : String :=
  if truthyS link then link.getD "" else searchLink title

/-- A normalized (title, link) pair as appended to `display_news`. -/
structure Headline where
  title : String
  link : String
  deriving Repr, DecidableEq

/-- The loop's mutable locals (src/app.py 168–171), plus `processed`,
which counts iterations that passed the cap check — i.e. raw items on
which title/link extraction actually ran. -/
structure NewsState where
  scores : List Int
  titlesFound : List String
  seenTitles : List String
  displayNews : List Headline
  processed : Nat
  deriving Repr, DecidableEq

def initState : NewsState := ⟨[], [], [], [], 0⟩

/-- Embeds `1 if res['label'] == 'positive' else -1 if res['label'] == 'negative' else 0`
(src/app.py 206–207). -/
def scoreOfLabel (label : String) : Int :=
  if label = "positive" then 1 else if label = "negative" then -1 else 0

/-- One loop iteration past the cap check (src/app.py 178–209).
`classify t = none` models the sentiment call raising (the
`except: continue`): the title and display entry are already recorded,
only the score is skipped. -/
def processItem (classify : String → Option String) (n : NewsItem) (st : NewsState) :
    NewsState :=
  let title := extractTitle n
  let link := extractLink n
  let st := { st with processed := st.processed + 1 }
  match title with
  | none => st
  | some t =>
    if t ∈ st.seenTitles then st
    else
      let fl := finalLink link t
      let st := { st with
        seenTitles := st.seenTitles ++ [t],
        titlesFound := st.titlesFound ++ [t],
        displayNews :=
          if st.displayNews.length < 5 then st.displayNews ++ [⟨t, fl⟩]
          else st.displayNews }
      match classify t with
      | some label => { st with scores := st.scores ++ [scoreOfLabel label] }
      | none => st

/-- The `for n in news_list` loop with its
`if len(titles_found) >= 20: break` head check (src/app.py 174–209). -/
def newsLoop (classify : String → Option String) :
    List NewsItem → NewsState → NewsState
  | [], st => st
  | n :: rest, st =>
    if 20 ≤ st.titlesFound.length then st
    else newsLoop classify rest (processItem classify n st)

def runNews (classify : String → Option String) (items : List NewsItem) : NewsState :=
  newsLoop classify items initState

def intToRat (z : ℤ) : ℚ := z

/-- The aggregation step (src/app.py 211–215): the pair
(`sent_val`, `sent_text`), with the numeric formatting inside the label
elided — only the band word is kept. -/
def sentiment (scores : List Int) : ℚ × String :=
  if scores.isEmpty then (0, "No News Data")
  else
    let v : ℚ := ((scores.map intToRat).sum) / scores.length
    (v, if v > 0.15 then "Positive" else if v < -0.15 then "Negative"
        else "Neutral / Mixed")

/-! ### Spec-side link-chain definitions (for C3)

`claimChainLink` renders the claim's words: first *defined* value in
the chain, and a URL-*escaped* title in the fallback.  `truthyChainLink`
is the amended chain the code actually implements: first *truthy*
(non-empty) value, raw title in the fallback. -/

/-- UTF-8 bytes of a character, as naturals. -/
def utf8Bytes (c : Char) : List ℕ :=
  let n := c.toNat
  if n < 0x80 then [n]
  else if n < 0x800 then [0xC0 + n / 0x40, 0x80 + n % 0x40]
  else if n < 0x10000 then
    [0xE0 + n / 0x1000, 0x80 + (n / 0x40) % 0x40, 0x80 + n % 0x40]
  else
    [0xF0 + n / 0x40000, 0x80 + (n / 0x1000) % 0x40, 0x80 + (n / 0x40) % 0x40,
      0x80 + n % 0x40]

def hexDigit (n : ℕ) : Char :=
  if n < 10 then Char.ofNat (48 + n) else Char.ofNat (55 + n)

def percentByte (b : ℕ) : String :=
  "%" ++ String.singleton (hexDigit (b / 16)) ++ String.singleton (hexDigit (b % 16))

def isUnreserved (c : Char) : Bool :=
  c.isAlphanum || c == '-' || c == '.' || c == '_' || c == '~'

/-- Standard percent-encoding: RFC 3986 unreserved characters kept,
everything else rendered as `%XX` per UTF-8 byte. -/
def urlEscape (s : String) : String :=
  s.data.foldl (fun acc c =>
    acc ++ (if isUnreserved c then String.singleton c
            else String.join ((utf8Bytes c).map percentByte))) ""

/-- The C3 claim's chain, literally: the first *defined* value of
direct link → clickThroughUrl.url → canonicalUrl.url, else the search
base plus the URL-escaped title. -/
def claimChainLink (n : NewsItem) (title : String) : String :=
  match n.link with
  | some l => l
  | none =>
    match (n.content.bind ContentObj.clickThroughUrl).bind UrlObj.url with
    | some l => l
    | none =>
      match (n.content.bind ContentObj.canonicalUrl).bind UrlObj.url with
      | some l => l
      | none => "https://www.google.com/search?q=" ++ urlEscape title

/-- The chain the code implements: first *truthy* (present and
non-empty) value of the same three candidates, else the search base
plus the *raw* title. -/
def truthyChainLink (n : NewsItem) (title : String) : String :=
  if truthyS n.link then n.link.getD ""
  else if truthyS ((n.content.bind ContentObj.clickThroughUrl).bind UrlObj.url) then
    ((n.content.bind ContentObj.clickThroughUrl).bind UrlObj.url).getD ""
  else if truthyS ((n.content.bind ContentObj.canonicalUrl).bind UrlObj.url) then
    ((n.content.bind ContentObj.canonicalUrl).bind UrlObj.url).getD ""
  else searchLink title

theorem truthyS_none : truthyS none = false := rfl

/-- An item whose direct link is the *defined but empty* string and
whose title needs escaping. -/
def exC3 : NewsItem := { title := some "a b", link := some "" }

/-- An item with no link anywhere and a title containing a space. -/
def exC3b : NewsItem := { title := some "a b" }

/-- C3 counterexample: the code's resolved link differs from the
claim's chain on two concrete items — an empty-string direct link is
*defined* (the claim's chain returns it) but falsy (the code skips it),
and the code's fallback URL carries the raw title `"a b"`, not the
URL-escaped `"a%20b"`. -/
theorem newsLink_not_claim_chain :
    (extractTitle exC3 = some "a b" ∧
      finalLink (extractLink exC3) "a b" ≠ claimChainLink exC3 "a b") ∧
    (extractTitle exC3b = some "a b" ∧
      finalLink (extractLink exC3b) "a b" = "https://www.google.com/search?q=a b" ∧
      claimChainLink exC3b "a b" = "https://www.google.com/search?q=a%20b" ∧
      finalLink (extractLink exC3b) "a b" ≠ claimChainLink exC3b "a b") := by
  decide

/-- C3 (amended): for every raw item with a resolvable title, the
resolved link is the first *truthy* (non-empty) value in the chain
direct link → clickThroughUrl.url → canonicalUrl.url (the nested
objects consulted only when they are dicts), and when no candidate is
truthy it is the search-engine base URL plus the raw, unescaped title. -/
theorem newsLink_eq_truthy_chain (n : NewsItem) (t : String)
    (_ht : extractTitle n = some t) :
    finalLink (extractLink n) t = truthyChainLink n t := by
  obtain ⟨tt, lnk, cont⟩ := n
  cases cont with
  | none =>
    cases hl : truthyS lnk <;>
      simp [extractLink, truthyChainLink, finalLink, hl, truthyS_none]
  | some c =>
    obtain ⟨ct, cct, ccan⟩ := c
    cases cct with
    | some u =>
      cases ccan with
      | some u2 =>
        cases hl : truthyS lnk <;> cases h1 : truthyS u.url <;>
          cases h2 : truthyS u2.url <;>
            simp [extractLink, truthyChainLink, finalLink, hl, h1, h2, truthyS_none]
      | none =>
        cases hl : truthyS lnk <;> cases h1 : truthyS u.url <;>
          simp [extractLink, truthyChainLink, finalLink, hl, h1, truthyS_none]
    | none =>
      cases ccan with
      | some u2 =>
        cases hl : truthyS lnk <;> cases h2 : truthyS u2.url <;>
          simp [extractLink, truthyChainLink, finalLink, hl, h2, truthyS_none]
      | none =>
        cases hl : truthyS lnk <;>
          simp [extractLink, truthyChainLink, finalLink, hl, truthyS_none]

/-- C3 witness: an item whose only link is a canonical URL dict. -/
theorem newsLink_eq_truthy_chain_witness :
    extractTitle { title := some "T", content := some { canonicalUrl := some { url := some "http://c" } } } = some "T" ∧
      finalLink (extractLink { title := some "T", content := some { canonicalUrl := some { url := some "http://c" } } }) "T" =
        truthyChainLink { title := some "T", content := some { canonicalUrl := some { url := some "http://c" } } } "T" :=
  ⟨by decide, newsLink_eq_truthy_chain _ "T" (by decide)⟩

/-! ### Loop invariants for the dedup / cap claims -/

/-- Invariant tying the loop locals together: the membership set equals
the title list (they are appended in lockstep), the title list has no
duplicates, and the display list is the first five titles with their
first-seen links' titles in order. -/
def NewsInv (st : NewsState) : Prop :=
  st.seenTitles = st.titlesFound ∧ st.titlesFound.Nodup ∧
    st.displayNews.map Headline.title = st.titlesFound.take 5

theorem processItem_inv (classify : String → Option String) (n : NewsItem)
    (st : NewsState) (h : NewsInv st) : NewsInv (processItem classify n st) := by
  obtain ⟨hseen, hnodup, hdisp⟩ := h
  unfold processItem
  cases ht : extractTitle n with
  | none => exact ⟨hseen, hnodup, hdisp⟩
  | some t =>
    by_cases hmem : t ∈ st.seenTitles
    · simp only [hmem, if_pos]
      exact ⟨hseen, hnodup, hdisp⟩
    · simp only [hmem, if_neg, not_false_iff]
      have hnotin : t ∉ st.titlesFound := hseen ▸ hmem
      have hnodup' : (st.titlesFound ++ [t]).Nodup := by
        simp [List.nodup_append, hnodup, hnotin]
      have hdisp' :
          (if st.displayNews.length < 5 then
              st.displayNews ++ [⟨t, finalLink (extractLink n) t⟩]
            else st.displayNews).map Headline.title =
            (st.titlesFound ++ [t]).take 5 := by
        by_cases hlen : st.displayNews.length < 5
        · have hlen5 : st.titlesFound.length < 5 := by
            have := congrArg List.length hdisp
            simp only [List.length_map, List.length_take] at this
            omega
          rw [if_pos hlen, List.map_append, hdisp,
            List.take_of_length_le (by omega),
            List.take_of_length_le (by simp; omega)]
          simp
        · have hlen5 : 5 ≤ st.titlesFound.length := by
            have := congrArg List.length hdisp
            simp only [List.length_map, List.length_take] at this
            omega
          rw [if_neg hlen, List.take_append_of_le_length hlen5, hdisp]
      cases hc : classify t with
      | some label =>
        exact ⟨by rw [hseen], hnodup', hdisp'⟩
      | none =>
        exact ⟨by rw [hseen], hnodup', hdisp'⟩

theorem newsLoop_inv (classify : String → Option String) (items : List NewsItem) :
    ∀ st : NewsState, NewsInv st → NewsInv (newsLoop classify items st) := by
  induction items with
  | nil => intro st h; exact h
  | cons n rest ih =>
    intro st h
    unfold newsLoop
    by_cases hcap : 20 ≤ st.titlesFound.length
    · simpa [hcap] using h
    · simpa [hcap] using ih _ (processItem_inv classify n st h)

theorem runNews_inv (classify : String → Option String) (items : List NewsItem) :
    NewsInv (runNews classify items) :=
  newsLoop_inv classify items initState ⟨rfl, List.nodup_nil, rfl⟩

/-- C7: (i) for every classifier and input batch, the emitted headline
list never holds two entries with the same title, and lists the first
five collected titles in collection order; (ii) when two raw items
resolve to the same title, exactly one entry is emitted and it carries
the first-seen item's link. -/
theorem news_dedup_first_wins :
    (∀ (classify : String → Option String) (items : List NewsItem),
        ((runNews classify items).displayNews.map Headline.title).Nodup ∧
          (runNews classify items).displayNews.map Headline.title =
            (runNews classify items).titlesFound.take 5) ∧
    (∀ (classify : String → Option String) (n₁ n₂ : NewsItem) (t : String),
        extractTitle n₁ = some t → extractTitle n₂ = some t →
          (runNews classify [n₁, n₂]).displayNews =
            [⟨t, finalLink (extractLink n₁) t⟩]) := by
  constructor
  · intro classify items
    obtain ⟨_, hnodup, hdisp⟩ := runNews_inv classify items
    exact ⟨hdisp ▸ hnodup.sublist (List.take_sublist 5 _), hdisp⟩
  · intro classify n₁ n₂ t h₁ h₂
    unfold runNews newsLoop
    simp only [initState, List.length_nil, Nat.le_zero, show ¬ (20 ≤ 0) by omega,
      if_neg, not_false_iff]
    unfold processItem
    rw [h₁]
    simp only [List.not_mem_nil, if_neg, not_false_iff, List.nil_append,
      List.length_nil, Nat.zero_lt_succ, if_pos]
    cases hc₁ : classify t <;>
    · unfold newsLoop
      simp only [List.length_cons, List.length_nil, show ¬ (20 ≤ 1) by omega,
        if_neg, not_false_iff]
      unfold processItem
      rw [h₂]
      simp [newsLoop]

/-- C7 witness: the spec's example — two raw items with the same title
and different direct links yield one entry carrying the first link. -/
theorem news_dedup_first_wins_witness :
    (((runNews (fun _ => none)
        [{ title := some "T", link := some "http://a" },
         { title := some "T", link := some "http://b" }]).displayNews.map
          Headline.title).Nodup) ∧
    ((runNews (fun _ => none)
        [{ title := some "T", link := some "http://a" },
         { title := some "T", link := some "http://b" }]).displayNews =
      [⟨"T", "http://a"⟩]) := by
  constructor
  · exact (news_dedup_first_wins.1 (fun _ => none) _).1
  · have h := news_dedup_first_wins.2 (fun _ => none)
      { title := some "T", link := some "http://a" }
      { title := some "T", link := some "http://b" } "T" (by decide) (by decide)
    rw [h]
    decide

/-- C2 counterexample: 21 raw items with no resolvable title: the break
condition `len(titles_found) >= 20` never fires, so all 21 items are
processed (title/link extraction runs on each), refuting "at most the
first 20 raw items". -/
theorem news_processes_beyond_twenty :
    (List.replicate 21 ({} : NewsItem)).length = 21 ∧
      (runNews (fun _ => none) (List.replicate 21 ({} : NewsItem))).processed = 21 := by
  constructor <;> rfl

theorem processItem_titlesFound_length (classify : String → Option String)
    (n : NewsItem) (st : NewsState) :
    (processItem classify n st).titlesFound.length ≤ st.titlesFound.length + 1 := by
  unfold processItem
  cases extractTitle n with
  | none => simp
  | some t =>
    by_cases hmem : t ∈ st.seenTitles
    · simp [hmem]
    · cases hc : classify t <;> simp [hmem, hc]

theorem newsLoop_titlesFound_le (classify : String → Option String)
    (items : List NewsItem) :
    ∀ st : NewsState, st.titlesFound.length ≤ 20 →
      (newsLoop classify items st).titlesFound.length ≤ 20 := by
  induction items with
  | nil => intro st h; exact h
  | cons n rest ih =>
    intro st h
    unfold newsLoop
    by_cases hcap : 20 ≤ st.titlesFound.length
    · simpa [hcap] using h
    · have := processItem_titlesFound_length classify n st
      simpa [hcap] using ih _ (by omega)

/-- C2 (amended): the cap is on *collected titles*, not on raw items
processed: the loop never collects more than 20 titles, and once 20
titles are collected it consumes no further item (the state is final);
but when items lack new titles, more than 20 raw items may be
processed. -/
theorem news_cap_twenty :
    (∀ (classify : String → Option String) (items : List NewsItem),
        (runNews classify items).titlesFound.length ≤ 20) ∧
    (∀ (classify : String → Option String) (items : List NewsItem) (st : NewsState),
        20 ≤ st.titlesFound.length → newsLoop classify items st = st) := by
  constructor
  · intro classify items
    exact newsLoop_titlesFound_le classify items initState (by simp [initState])
  · intro classify items st h
    cases items with
    | nil => rfl
    | cons n rest => simp [newsLoop, h]

/-- C2 witness: a state that already holds 20 titles absorbs any
further item unchanged, and a concrete run stays within the cap. -/
theorem news_cap_twenty_witness :
    (runNews (fun _ => none) (List.replicate 21 ({} : NewsItem))).titlesFound.length ≤ 20 ∧
      newsLoop (fun _ => none) [({} : NewsItem)]
          ⟨[], List.replicate 20 "t", List.replicate 20 "t", [], 0⟩ =
        ⟨[], List.replicate 20 "t", List.replicate 20 "t", [], 0⟩ :=
  ⟨news_cap_twenty.1 (fun _ => none) _,
    news_cap_twenty.2 (fun _ => none) [{}] _ (by simp)⟩

/-! ### Sentiment aggregation (C8) -/

theorem scoreOfLabel_mem (label : String) :
    scoreOfLabel label = -1 ∨ scoreOfLabel label = 0 ∨ scoreOfLabel label = 1 := by
  unfold scoreOfLabel
  split
  · right; right; rfl
  · split
    · left; rfl
    · right; left; rfl

theorem processItem_scores (classify : String → Option String) (n : NewsItem)
    (st : NewsState)
    (h : ∀ z ∈ st.scores, z = -1 ∨ z = 0 ∨ z = 1) :
    ∀ z ∈ (processItem classify n st).scores, z = -1 ∨ z = 0 ∨ z = 1 := by
  unfold processItem
  cases extractTitle n with
  | none => exact h
  | some t =>
    by_cases hmem : t ∈ st.seenTitles
    · simp only [hmem, if_pos]; exact h
    · simp only [hmem, if_neg, not_false_iff]
      cases hc : classify t with
      | some label =>
        intro z hz
        rcases List.mem_append.mp hz with hz' | hz'
        · exact h z hz'
        · rcases List.mem_singleton.mp hz' with rfl
          exact scoreOfLabel_mem label
      | none => exact h

theorem newsLoop_scores (classify : String → Option String) (items : List NewsItem) :
    ∀ st : NewsState, (∀ z ∈ st.scores, z = -1 ∨ z = 0 ∨ z = 1) →
      ∀ z ∈ (newsLoop classify items st).scores, z = -1 ∨ z = 0 ∨ z = 1 := by
  induction items with
  | nil => intro st h; exact h
  | cons n rest ih =>
    intro st h
    unfold newsLoop
    by_cases hcap : 20 ≤ st.titlesFound.length
    · simpa [hcap] using h
    · simpa [hcap] using ih _ (processItem_scores classify n st h)

/-- C8: with zero scored headlines the aggregator reports the
distinguished "No News Data" label; otherwise the value is the
arithmetic mean of the per-headline scores, each of which is −1, 0 or
+1; the mean is exactly 1 when every label is "positive" and exactly −1
when every label is "negative". -/
theorem sentiment_aggregate :
    (sentiment [] = (0, "No News Data")) ∧
    (∀ scores : List Int, scores ≠ [] →
        (sentiment scores).1 = ((scores.map intToRat).sum) / scores.length) ∧
    (∀ (classify : String → Option String) (items : List NewsItem),
        ∀ z ∈ (runNews classify items).scores, z = -1 ∨ z = 0 ∨ z = 1) ∧
    (∀ labels : List String, labels ≠ [] → (∀ l ∈ labels, l = "positive") →
        (sentiment (labels.map scoreOfLabel)).1 = 1) ∧
    (∀ labels : List String, labels ≠ [] → (∀ l ∈ labels, l = "negative") →
        (sentiment (labels.map scoreOfLabel)).1 = -1) := by
  have hmean : ∀ scores : List Int, scores ≠ [] →
      (sentiment scores).1 = ((scores.map intToRat).sum) / scores.length := by
    intro scores hne
    simp [sentiment, List.isEmpty_iff, hne]
  refine ⟨rfl, hmean, ?_, ?_, ?_⟩
  · intro classify items
    exact newsLoop_scores classify items initState (by simp [initState])
  · intro labels hne hall
    rw [hmean _ (by simpa using hne)]
    have hconst : ∀ x ∈ (labels.map scoreOfLabel).map intToRat, x = 1 := by
      intro x hx
      simp only [List.map_map, List.mem_map] at hx
      obtain ⟨l, hl, rfl⟩ := hx
      simp [Function.comp, hall l hl, scoreOfLabel, intToRat]
    rw [List.sum_eq_card_nsmul _ 1 hconst]
    have hlen : 0 < labels.length := List.length_pos.mpr hne
    simp only [List.length_map, nsmul_eq_mul, mul_one]
    rw [div_self]
    exact_mod_cast hlen.ne'
  · intro labels hne hall
    rw [hmean _ (by simpa using hne)]
    have hconst : ∀ x ∈ (labels.map scoreOfLabel).map intToRat, x = -1 := by
      intro x hx
      simp only [List.map_map, List.mem_map] at hx
      obtain ⟨l, hl, rfl⟩ := hx
      simp [Function.comp, hall l hl, scoreOfLabel, intToRat]
    rw [List.sum_eq_card_nsmul _ (-1) hconst]
    have hlen : 0 < labels.length := List.length_pos.mpr hne
    simp only [List.length_map, nsmul_eq_mul, mul_neg_one]
    rw [neg_div, div_self]
    exact_mod_cast hlen.ne'

/-- C8 witness: one "positive" headline gives mean exactly 1, one
"negative" headline gives mean exactly −1, and the empty case reports
"No News Data". -/
theorem sentiment_aggregate_witness :
    sentiment [] = (0, "No News Data") ∧
      (sentiment (["positive"].map scoreOfLabel)).1 = 1 ∧
      (sentiment (["negative"].map scoreOfLabel)).1 = -1 :=
  ⟨sentiment_aggregate.1,
    sentiment_aggregate.2.2.2.1 ["positive"] (by simp) (by simp),
    sentiment_aggregate.2.2.2.2 ["negative"] (by simp) (by simp)⟩

end InsightAlpha
